import Mathlib

/-!
Verification of the data pipeline of the GUDID supply-chain dashboard.

The core under study is the relationship-graph derivation inlined in
`renderForceGraph` of `src/App.tsx`, together with the filter and
aggregation engines (`filterData`, `aggregateData` of
`services/dataService`, modelled from the spec where the source file is
absent from the repository snapshot).
-/

set_option maxRecDepth 4096

/-- One parsed supply-chain line item, as consumed by `App.tsx`
(field names follow the source: `Suppliername`, `deliverdate`, `customer`,
`DeviceName`, `Numbers`, `ModelNum`).  The delivery date is modelled
abstractly as an optional day ordinal (`none` = absent/unparseable), since
the parser producing it is outside the snapshot. -/
structure PackingListItem where
  Suppliername : String
  deliverdate : Option Nat
  customer : String
  DeviceName : String
  Numbers : Nat
  ModelNum : String
deriving DecidableEq, Repr

/-- A node of the derived relationship graph: `{id, group, label}` as pushed
by `renderForceGraph`. -/
structure GraphNode where
  id : String
  group : String
  label : String
deriving DecidableEq, Repr

/-- A link of the derived relationship graph: `{source, target, value}` as
pushed by `renderForceGraph`. -/
structure GraphLink where
  source : String
  target : String
  value : Nat
deriving DecidableEq, Repr

/-- The node/link model handed to the force-layout renderer. -/
structure GraphModel where
  nodes : List GraphNode
  links : List GraphLink
deriving DecidableEq, Repr

/-- The conditional node insertion of `renderForceGraph`:
`if (!nodeSet.has(id)) { nodes.push({id, group, label}); nodeSet.add(id); }`. -/
def addNode (nodes : List GraphNode) (nodeSet : List String)
    (nid ngroup nlabel : String) : List GraphNode × List String :=
  if nid ∈ nodeSet then (nodes, nodeSet)
  else (nodes ++ [⟨nid, ngroup, nlabel⟩], nodeSet ++ [nid])

/-- The `graphData.forEach` loop body of `renderForceGraph`, as a recursion
carrying the `nodes` accumulator and the `nodeSet` membership set; the two
links pushed for a record precede those of later records, matching push
order. -/
def buildGraphLoop : List PackingListItem → List GraphNode → List String →
    List GraphNode × List GraphLink
  | [], nodes, _ => (nodes, [])
  | d :: rest, nodes, nodeSet =>
    let sup := "SUP:" ++ d.Suppliername
    let dev := "DEV:" ++ d.DeviceName
    let cust := "CUST:" ++ d.customer
    let p1 := addNode nodes nodeSet sup "supplier" d.Suppliername
    let p2 := addNode p1.1 p1.2 dev "device" d.DeviceName
    let p3 := addNode p2.1 p2.2 cust "customer" d.customer
    let r := buildGraphLoop rest p3.1 p3.2
    (r.1, ⟨sup, dev, 1⟩ :: ⟨dev, cust, d.Numbers⟩ :: r.2)

/-- `renderForceGraph` of `src/App.tsx` lines 215-237: returns `none`
(the `null` early return) on an empty collection, otherwise builds the
graph model from `filteredData.slice(0, 100)`. -/
def renderForceGraph (filteredData : List PackingListItem) :
    Option GraphModel :=
  if filteredData.length = 0 then none
  else
    let graphData := filteredData.take 100
    let r := buildGraphLoop graphData [] []
    some ⟨r.1, r.2⟩

/-- The sequence of nodes produced by the graph builder (`[]` when the
builder returns `none`). -/
def graphNodes (rs : List PackingListItem) : List GraphNode :=
  match renderForceGraph rs with
  | none => []
  | some g => g.nodes

/-- The sequence of links produced by the graph builder (`[]` when the
builder returns `none`). -/
def graphLinks (rs : List PackingListItem) : List GraphLink :=
  match renderForceGraph rs with
  | none => []
  | some g => g.links

/-- Specification-side derivation of the two links a single record
contributes: supplier to device with weight 1, then device to customer with
weight equal to the record quantity. -/
def recordLinks (d : PackingListItem) : List GraphLink :=
  [⟨"SUP:" ++ d.Suppliername, "DEV:" ++ d.DeviceName, 1⟩,
   ⟨"DEV:" ++ d.DeviceName, "CUST:" ++ d.customer, d.Numbers⟩]

/-- The three composite node ids a record references, in the order the loop
body consults them (supplier, device, customer). -/
def recordIds (d : PackingListItem) : List String :=
  ["SUP:" ++ d.Suppliername, "DEV:" ++ d.DeviceName, "CUST:" ++ d.customer]

/-- All composite ids referenced by the capped prefix, record by record. -/
def refIds (rs : List PackingListItem) : List String :=
  (rs.take 100).flatMap recordIds

/-- One step of first-seen deduplication: append the id unless already
seen. -/
def seenFold (acc : List String) (x : String) : List String :=
  if x ∈ acc then acc else acc ++ [x]

/-- First-seen deduplication of a sequence of ids: keeps the first
occurrence of each id, in order of first appearance. -/
def firstSeenIds (l : List String) : List String :=
  l.foldl seenFold []

/-- The filter criteria record: empty string = wildcard for supplier and
device, `none` = unbounded for either date bound. -/
structure DataFilters where
  supplier : String
  device : String
  startDate : Option Nat
  endDate : Option Nat
deriving DecidableEq, Repr

/-- Modelled from the spec: `filterData` of `services/dataService` (file
absent from the snapshot).  Supplier and device are exact matches with an
empty criterion matching everything; a record passes the date check when
its date lies in the inclusive range, with an unset bound unbounded on
that side; a record with no parseable date is excluded whenever at least
one bound is set and included when both are unset; the four criteria are
ANDed and the output preserves input order. -/
def matchesFilters (f : DataFilters) (r : PackingListItem) : Bool :=
  (f.supplier == "" || r.Suppliername == f.supplier) &&
  (f.device == "" || r.DeviceName == f.device) &&
  (match f.startDate, f.endDate with
   | none, none => true
   | _, _ =>
     match r.deliverdate with
     | none => false
     | some d =>
       (match f.startDate with
        | none => true
        | some s => decide (s ≤ d)) &&
       (match f.endDate with
        | none => true
        | some e => decide (d ≤ e)))

/-- Modelled from the spec: the filter engine applies the conjunction of
the four criteria to each record, preserving order. -/
def filterData (records : List PackingListItem) (filters : DataFilters) :
    List PackingListItem :=
  records.filter (matchesFilters filters)

/-- One entry of the ranked top-device list. -/
structure DeviceStat where
  name : String
  value : Nat
deriving DecidableEq, Repr

/-- One entry of the chronological time series. -/
structure TimePoint where
  date : Nat
  value : Nat
deriving DecidableEq, Repr

/-- The summary produced by the aggregation engine. -/
structure AggregateResult where
  totalLines : Nat
  totalUnits : Nat
  uniqueSuppliers : Nat
  uniqueCustomers : Nat
  timeSeries : List TimePoint
  topDevices : List DeviceStat
deriving DecidableEq, Repr

/-- Total quantity shipped for one device name across a collection. -/
def deviceTotal (records : List PackingListItem) (n : String) : Nat :=
  ((records.filter (fun r => r.DeviceName == n)).map
    (fun r => r.Numbers)).sum

/-- Total quantity shipped on one delivery date across a collection. -/
def dateTotal (records : List PackingListItem) (d : Nat) : Nat :=
  ((records.filter (fun r => r.deliverdate == some d)).map
    (fun r => r.Numbers)).sum

/-- Ranking order on device entries: larger total first, ties broken by
name ascending. -/
def devRel (a b : DeviceStat) : Prop :=
  b.value < a.value ∨ (a.value = b.value ∧ a.name ≤ b.name)

instance : DecidableRel devRel := fun a b => by
  unfold devRel; infer_instance

/-- The distinct device names of a collection, in first-appearance order. -/
def deviceNames (records : List PackingListItem) : List String :=
  (records.map (fun r => r.DeviceName)).dedup

/-- The distinct delivery dates present in a collection. -/
def deliveryDates (records : List PackingListItem) : List Nat :=
  (records.filterMap (fun r => r.deliverdate)).dedup

/-- Modelled from the spec: `aggregateData` of `services/dataService` (file
absent from the snapshot).  `totalLines` counts records, `totalUnits` sums
quantities, the unique counts count distinct non-empty supplier/customer
values, `timeSeries` has one entry per distinct date present in ascending
date order with the quantity sum for that date, and `topDevices` sums
quantity per distinct device name, sorts descending by sum with ties
broken by name ascending, and truncates to the top 10. -/
def aggregateData (records : List PackingListItem) : AggregateResult :=
  { totalLines := records.length
    totalUnits := (records.map (fun r => r.Numbers)).sum
    uniqueSuppliers :=
      (((records.map (fun r => r.Suppliername)).filter
        (fun s => !(s == ""))).dedup).length
    uniqueCustomers :=
      (((records.map (fun r => r.customer)).filter
        (fun s => !(s == ""))).dedup).length
    timeSeries :=
      (List.insertionSort (fun a b => a ≤ b) (deliveryDates records)).map
        (fun d => ⟨d, dateTotal records d⟩)
    topDevices :=
      (List.insertionSort devRel
        ((deviceNames records).map
          (fun n => ⟨n, deviceTotal records n⟩))).take 10 }

example : renderForceGraph [] = none := rfl

example : aggregateData [] = ⟨0, 0, 0, 0, [], []⟩ := rfl

example :
    aggregateData
      [⟨"S1", some 1, "C", "D1", 5, "M"⟩, ⟨"S1", some 2, "C", "D2", 3, "M"⟩] =
      ⟨2, 8, 1, 1, [⟨1, 5⟩, ⟨2, 3⟩], [⟨"D1", 5⟩, ⟨"D2", 3⟩]⟩ := by
  decide

example :
    graphNodes [⟨"A", none, "C1", "X", 5, "M"⟩, ⟨"A", none, "C2", "X", 3, "M"⟩] =
      [⟨"SUP:A", "supplier", "A"⟩, ⟨"DEV:X", "device", "X"⟩,
       ⟨"CUST:C1", "customer", "C1"⟩, ⟨"CUST:C2", "customer", "C2"⟩] := by
  decide

example :
    graphLinks [⟨"A", none, "C1", "X", 5, "M"⟩, ⟨"A", none, "C2", "X", 3, "M"⟩] =
      [⟨"SUP:A", "DEV:X", 1⟩, ⟨"DEV:X", "CUST:C1", 5⟩,
       ⟨"SUP:A", "DEV:X", 1⟩, ⟨"DEV:X", "CUST:C2", 3⟩] := by
  decide

/-! ### Helper lemmas about the graph-builder loop -/

theorem buildGraphLoop_links (l : List PackingListItem) :
    ∀ nodes nodeSet,
      (buildGraphLoop l nodes nodeSet).2 = l.flatMap recordLinks := by
  induction l with
  | nil => intro nodes nodeSet; simp [buildGraphLoop]
  | cons d rest ih =>
    intro nodes nodeSet
    simp [buildGraphLoop, recordLinks, ih]

theorem graphLinks_eq (rs : List PackingListItem) :
    graphLinks rs = (rs.take 100).flatMap recordLinks := by
  by_cases h : rs.length = 0
  · rw [List.length_eq_zero.mp h]
    simp [graphLinks, renderForceGraph]
  · simp [graphLinks, renderForceGraph, h, buildGraphLoop_links]

theorem length_flatMap_recordLinks (l : List PackingListItem) :
    (l.flatMap recordLinks).length = 2 * l.length := by
  induction l with
  | nil => simp
  | cons d rest ih =>
    simp only [List.flatMap_cons, List.length_append, ih, recordLinks]
    simp
    ring

theorem addNode_ids (nodes : List GraphNode) (nid g lb : String) :
    (addNode nodes (nodes.map GraphNode.id) nid g lb).1.map GraphNode.id =
      seenFold (nodes.map GraphNode.id) nid ∧
    (addNode nodes (nodes.map GraphNode.id) nid g lb).2 =
      (addNode nodes (nodes.map GraphNode.id) nid g lb).1.map GraphNode.id := by
  unfold addNode seenFold
  split <;> simp

theorem buildGraphLoop_ids (l : List PackingListItem) :
    ∀ (nodes : List GraphNode),
      (buildGraphLoop l nodes (nodes.map GraphNode.id)).1.map GraphNode.id =
        (l.flatMap recordIds).foldl seenFold (nodes.map GraphNode.id) := by
  induction l with
  | nil => intro nodes; simp [buildGraphLoop]
  | cons d rest ih =>
    intro nodes
    simp only [buildGraphLoop]
    obtain ⟨ha1, ha1'⟩ :=
      addNode_ids nodes ("SUP:" ++ d.Suppliername) "supplier" d.Suppliername
    rw [ha1']
    obtain ⟨ha2, ha2'⟩ :=
      addNode_ids
        (addNode nodes (nodes.map GraphNode.id) ("SUP:" ++ d.Suppliername)
          "supplier" d.Suppliername).1
        ("DEV:" ++ d.DeviceName) "device" d.DeviceName
    rw [ha2']
    obtain ⟨ha3, ha3'⟩ :=
      addNode_ids
        (addNode
          (addNode nodes (nodes.map GraphNode.id) ("SUP:" ++ d.Suppliername)
            "supplier" d.Suppliername).1
          ((addNode nodes (nodes.map GraphNode.id) ("SUP:" ++ d.Suppliername)
            "supplier" d.Suppliername).1.map GraphNode.id)
          ("DEV:" ++ d.DeviceName) "device" d.DeviceName).1
        ("CUST:" ++ d.customer) "customer" d.customer
    rw [ha3']
    rw [ih]
    rw [ha3, ha2, ha1]
    simp [recordIds, seenFold]

theorem graphNodes_ids (rs : List PackingListItem) :
    (graphNodes rs).map GraphNode.id = firstSeenIds (refIds rs) := by
  by_cases h : rs.length = 0
  · rw [List.length_eq_zero.mp h]
    simp [graphNodes, renderForceGraph, firstSeenIds, refIds]
  · have hmain := buildGraphLoop_ids (rs.take 100) []
    simp only [List.map_nil] at hmain
    simp only [graphNodes, renderForceGraph, h, if_neg]
    simpa [firstSeenIds, refIds] using hmain

theorem subset_foldl_seenFold (l : List String) :
    ∀ acc, acc ⊆ l.foldl seenFold acc := by
  induction l with
  | nil => intro acc; simp
  | cons x rest ih =>
    intro acc
    refine List.Subset.trans ?_ (ih (seenFold acc x))
    unfold seenFold
    split
    · exact fun a ha => ha
    · exact fun a ha => List.mem_append_left _ ha

theorem mem_foldl_seenFold (l : List String) :
    ∀ acc x, x ∈ l → x ∈ l.foldl seenFold acc := by
  induction l with
  | nil => intro acc x hx; simp at hx
  | cons y rest ih =>
    intro acc x hx
    rcases List.mem_cons.mp hx with h | h
    · subst h
      refine subset_foldl_seenFold rest (seenFold acc x) ?_
      unfold seenFold
      split
      · assumption
      · exact List.mem_append_right _ (by simp)
    · exact ih _ x h

theorem nodup_foldl_seenFold (l : List String) :
    ∀ acc, acc.Nodup → (l.foldl seenFold acc).Nodup := by
  induction l with
  | nil => intro acc h; simpa using h
  | cons x rest ih =>
    intro acc h
    refine ih (seenFold acc x) ?_
    unfold seenFold
    split
    · exact h
    · simp_all [List.nodup_append]

theorem nodup_graphNodes_ids (rs : List PackingListItem) :
    ((graphNodes rs).map GraphNode.id).Nodup := by
  rw [graphNodes_ids]
  exact nodup_foldl_seenFold _ _ List.nodup_nil

theorem mem_graphNodes_ids (rs : List PackingListItem) (x : String)
    (hx : x ∈ refIds rs) : x ∈ (graphNodes rs).map GraphNode.id := by
  rw [graphNodes_ids]
  exact mem_foldl_seenFold _ _ _ hx

/-- Well-formedness of a produced node: its id is its group tag followed by
its label. -/
def NodeOk (n : GraphNode) : Prop :=
  (n.group = "supplier" ∧ n.id = "SUP:" ++ n.label) ∨
  (n.group = "device" ∧ n.id = "DEV:" ++ n.label) ∨
  (n.group = "customer" ∧ n.id = "CUST:" ++ n.label)

theorem addNode_nodeOk (nodes : List GraphNode) (nodeSet : List String)
    (nid g lb : String) (h : ∀ n ∈ nodes, NodeOk n)
    (hok : NodeOk ⟨nid, g, lb⟩) :
    ∀ n ∈ (addNode nodes nodeSet nid g lb).1, NodeOk n := by
  unfold addNode
  split
  · exact h
  · intro n hn
    rcases List.mem_append.mp hn with hn | hn
    · exact h n hn
    · rw [List.mem_singleton.mp hn]
      exact hok

theorem buildGraphLoop_nodeOk (l : List PackingListItem) :
    ∀ nodes nodeSet, (∀ n ∈ nodes, NodeOk n) →
      ∀ n ∈ (buildGraphLoop l nodes nodeSet).1, NodeOk n := by
  induction l with
  | nil => intro nodes nodeSet h; simpa [buildGraphLoop] using h
  | cons d rest ih =>
    intro nodes nodeSet h
    simp only [buildGraphLoop]
    refine ih _ _ ?_
    refine addNode_nodeOk _ _ _ _ _ ?_ (Or.inr (Or.inr ⟨rfl, rfl⟩))
    refine addNode_nodeOk _ _ _ _ _ ?_ (Or.inr (Or.inl ⟨rfl, rfl⟩))
    exact addNode_nodeOk _ _ _ _ _ h (Or.inl ⟨rfl, rfl⟩)

theorem graphNodes_nodeOk (rs : List PackingListItem) :
    ∀ n ∈ graphNodes rs, NodeOk n := by
  by_cases h : rs.length = 0
  · rw [List.length_eq_zero.mp h]
    simp [graphNodes, renderForceGraph]
  · simp only [graphNodes, renderForceGraph, h, if_neg]
    exact buildGraphLoop_nodeOk (rs.take 100) [] [] (by simp)

/-! ### Tag disjointness and cancellation for composite ids -/

theorem sup_ne_dev (v w : String) : "SUP:" ++ v ≠ "DEV:" ++ w := by
  intro h
  have h2 : ("SUP:" ++ v).data = ("DEV:" ++ w).data := by rw [h]
  rw [String.data_append, String.data_append] at h2
  have hs : "SUP:".data = 'S' :: 'U' :: 'P' :: ':' :: [] := rfl
  have hd : "DEV:".data = 'D' :: 'E' :: 'V' :: ':' :: [] := rfl
  rw [hs, hd] at h2
  simp at h2

theorem sup_ne_cust (v w : String) : "SUP:" ++ v ≠ "CUST:" ++ w := by
  intro h
  have h2 : ("SUP:" ++ v).data = ("CUST:" ++ w).data := by rw [h]
  rw [String.data_append, String.data_append] at h2
  have hs : "SUP:".data = 'S' :: 'U' :: 'P' :: ':' :: [] := rfl
  have hc : "CUST:".data = 'C' :: 'U' :: 'S' :: 'T' :: ':' :: [] := rfl
  rw [hs, hc] at h2
  simp at h2

theorem dev_ne_cust (v w : String) : "DEV:" ++ v ≠ "CUST:" ++ w := by
  intro h
  have h2 : ("DEV:" ++ v).data = ("CUST:" ++ w).data := by rw [h]
  rw [String.data_append, String.data_append] at h2
  have hd : "DEV:".data = 'D' :: 'E' :: 'V' :: ':' :: [] := rfl
  have hc : "CUST:".data = 'C' :: 'U' :: 'S' :: 'T' :: ':' :: [] := rfl
  rw [hd, hc] at h2
  simp at h2

theorem tag_append_inj (t x y : String) (h : t ++ x = t ++ y) : x = y := by
  have h2 : (t ++ x).data = (t ++ y).data := by rw [h]
  rw [String.data_append, String.data_append] at h2
  exact String.ext (List.append_cancel_left h2)

theorem flatMap_recordLinks_getElem (l : List PackingListItem) :
    ∀ (i : Nat) (h : i < l.length),
      (l.flatMap recordLinks)[2 * i]? =
        some ⟨"SUP:" ++ (l.get ⟨i, h⟩).Suppliername,
              "DEV:" ++ (l.get ⟨i, h⟩).DeviceName, 1⟩ ∧
      (l.flatMap recordLinks)[2 * i + 1]? =
        some ⟨"DEV:" ++ (l.get ⟨i, h⟩).DeviceName,
              "CUST:" ++ (l.get ⟨i, h⟩).customer, (l.get ⟨i, h⟩).Numbers⟩ := by
  induction l with
  | nil => intro i h; simp at h
  | cons d rest ih =>
    intro i h
    cases i with
    | zero => simp [recordLinks]
    | succ j =>
      have h2 : j < rest.length := by simpa using h
      have e1 : 2 * (j + 1) = (2 * j) + 1 + 1 := by ring
      rw [e1]
      simpa [recordLinks] using ih j h2

theorem mem_of_foldl_seenFold (l : List String) :
    ∀ acc x, x ∈ l.foldl seenFold acc → x ∈ acc ∨ x ∈ l := by
  induction l with
  | nil => intro acc x h; exact Or.inl (by simpa using h)
  | cons y rest ih =>
    intro acc x h
    rcases ih (seenFold acc y) x h with h2 | h2
    · unfold seenFold at h2
      split at h2
      · exact Or.inl h2
      · rcases List.mem_append.mp h2 with h3 | h3
        · exact Or.inl h3
        · exact Or.inr (by simp [List.mem_singleton.mp h3])
    · exact Or.inr (List.mem_cons_of_mem _ h2)

/-! ### Claim theorems -/

/-- C1: the graph derivation is applied only to the first 100 records: the
links produced are exactly those derived record by record from the prefix
of the first min(100, length) records, and the link count is
2 × min(100, length). -/
theorem graph_cap_prefix_links (rs : List PackingListItem) :
    graphLinks rs = (rs.take 100).flatMap recordLinks ∧
    (graphLinks rs).length = 2 * min 100 rs.length := by
  refine ⟨graphLinks_eq rs, ?_⟩
  rw [graphLinks_eq, length_flatMap_recordLinks, List.length_take]

/-- C2: graph nodes are deduplicated by a composite id of group tag plus
raw field value: the id sequence has no duplicates, every record of the
capped prefix has its three composite ids present, and composite ids never
collide across groups. -/
theorem node_dedup_composite_id (rs : List PackingListItem) :
    ((graphNodes rs).map GraphNode.id).Nodup ∧
    (∀ d ∈ rs.take 100,
      "SUP:" ++ d.Suppliername ∈ (graphNodes rs).map GraphNode.id ∧
      "DEV:" ++ d.DeviceName ∈ (graphNodes rs).map GraphNode.id ∧
      "CUST:" ++ d.customer ∈ (graphNodes rs).map GraphNode.id) ∧
    (∀ v w : String,
      "SUP:" ++ v ≠ "DEV:" ++ w ∧ "SUP:" ++ v ≠ "CUST:" ++ w ∧
      "DEV:" ++ v ≠ "CUST:" ++ w) := by
  refine ⟨nodup_graphNodes_ids rs, fun d hd => ?_,
    fun v w => ⟨sup_ne_dev v w, sup_ne_cust v w, dev_ne_cust v w⟩⟩
  refine ⟨mem_graphNodes_ids rs _ ?_, mem_graphNodes_ids rs _ ?_,
    mem_graphNodes_ids rs _ ?_⟩ <;>
    exact List.mem_flatMap.mpr ⟨d, hd, by simp [recordIds]⟩

/-- C3: each record at position i of the capped prefix contributes exactly
the two links at positions 2i and 2i+1: supplier to device with weight 1,
then device to customer with weight equal to the record quantity; links
are positional, never merged, so repeated records give parallel links. -/
theorem record_two_links (rs : List PackingListItem) (i : Nat)
    (h : i < min 100 rs.length) :
    (graphLinks rs)[2 * i]? =
      some ⟨"SUP:" ++ (rs.get ⟨i, by omega⟩).Suppliername,
            "DEV:" ++ (rs.get ⟨i, by omega⟩).DeviceName, 1⟩ ∧
    (graphLinks rs)[2 * i + 1]? =
      some ⟨"DEV:" ++ (rs.get ⟨i, by omega⟩).DeviceName,
            "CUST:" ++ (rs.get ⟨i, by omega⟩).customer,
            (rs.get ⟨i, by omega⟩).Numbers⟩ := by
  have hlen : i < (rs.take 100).length := by
    rw [List.length_take]; omega
  have hmain := flatMap_recordLinks_getElem (rs.take 100) i hlen
  have hget : (rs.take 100).get ⟨i, hlen⟩ = rs.get ⟨i, by omega⟩ := by
    simp [List.getElem_take]
  rw [hget] at hmain
  rw [graphLinks_eq]
  exact hmain

/-- Witness for C3 at a concrete two-record input whose records repeat the
same supplier/device pair. -/
theorem record_two_links_witness :
    (0 < min 100
      ([⟨"A", none, "C1", "X", 5, "M"⟩,
        ⟨"A", none, "C2", "X", 3, "M"⟩] : List PackingListItem).length) ∧
    ((graphLinks [⟨"A", none, "C1", "X", 5, "M"⟩,
        ⟨"A", none, "C2", "X", 3, "M"⟩])[2 * 0]? =
      some ⟨"SUP:" ++ "A", "DEV:" ++ "X", 1⟩ ∧
     (graphLinks [⟨"A", none, "C1", "X", 5, "M"⟩,
        ⟨"A", none, "C2", "X", 3, "M"⟩])[2 * 0 + 1]? =
      some ⟨"DEV:" ++ "X", "CUST:" ++ "C1", 5⟩) :=
  ⟨by decide,
   record_two_links
     [⟨"A", none, "C1", "X", 5, "M"⟩, ⟨"A", none, "C2", "X", 3, "M"⟩]
     0 (by decide)⟩

/-- C8: the node sequence is in first-seen order: the id sequence equals
the first-seen deduplication of the reference id stream (capped prefix in
input order, supplier then device then customer within each record), and
an id appears among the nodes exactly when some record of the capped
prefix references it. -/
theorem nodes_first_seen_order (rs : List PackingListItem) :
    (graphNodes rs).map GraphNode.id = firstSeenIds (refIds rs) ∧
    (∀ x : String, x ∈ (graphNodes rs).map GraphNode.id ↔ x ∈ refIds rs) := by
  refine ⟨graphNodes_ids rs, fun x => ⟨?_, mem_graphNodes_ids rs x⟩⟩
  intro hx
  rw [graphNodes_ids] at hx
  unfold firstSeenIds at hx
  rcases mem_of_foldl_seenFold _ _ _ hx with h | h
  · simp at h
  · exact h

/-- C9: link referential integrity: both endpoints of every produced link
occur as the id of some produced node. -/
theorem link_endpoints_are_nodes (rs : List PackingListItem)
    (lk : GraphLink) (hlk : lk ∈ graphLinks rs) :
    lk.source ∈ (graphNodes rs).map GraphNode.id ∧
    lk.target ∈ (graphNodes rs).map GraphNode.id := by
  rw [graphLinks_eq] at hlk
  obtain ⟨d, hd, hmem⟩ := List.mem_flatMap.mp hlk
  have hsup : "SUP:" ++ d.Suppliername ∈ refIds rs :=
    List.mem_flatMap.mpr ⟨d, hd, by simp [recordIds]⟩
  have hdev : "DEV:" ++ d.DeviceName ∈ refIds rs :=
    List.mem_flatMap.mpr ⟨d, hd, by simp [recordIds]⟩
  have hcust : "CUST:" ++ d.customer ∈ refIds rs :=
    List.mem_flatMap.mpr ⟨d, hd, by simp [recordIds]⟩
  simp only [recordLinks, List.mem_cons, List.mem_singleton] at hmem
  rcases hmem with hmem | hmem | hmem
  · rw [hmem]
    exact ⟨mem_graphNodes_ids rs _ hsup, mem_graphNodes_ids rs _ hdev⟩
  · rw [hmem]
    exact ⟨mem_graphNodes_ids rs _ hdev, mem_graphNodes_ids rs _ hcust⟩
  · simp at hmem

/-- Witness for C9 at a concrete one-record input. -/
theorem link_endpoints_are_nodes_witness :
    (GraphLink.mk "SUP:A" "DEV:X" 1) ∈
      graphLinks [⟨"A", none, "C", "X", 5, "M"⟩] ∧
    ((GraphLink.mk "SUP:A" "DEV:X" 1).source ∈
      (graphNodes [⟨"A", none, "C", "X", 5, "M"⟩]).map GraphNode.id ∧
     (GraphLink.mk "SUP:A" "DEV:X" 1).target ∈
      (graphNodes [⟨"A", none, "C", "X", 5, "M"⟩]).map GraphNode.id) :=
  ⟨by decide,
   link_endpoints_are_nodes [⟨"A", none, "C", "X", 5, "M"⟩]
     (GraphLink.mk "SUP:A" "DEV:X" 1) (by decide)⟩

/-- C4 counterexample: on the empty collection the graph builder returns
`none` (the `null` early return of `renderForceGraph`), not a graph model
with empty nodes and links as the claim states. -/
theorem empty_graph_counterexample :
    ¬ ∃ g : GraphModel,
      renderForceGraph [] = some g ∧ g.nodes = [] ∧ g.links = [] := by
  simp [renderForceGraph]

/-- C4 amended: on an empty collection the aggregation engine returns the
all-zero/empty summary (totalUnits 0, never NaN) and the graph builder
returns no graph at all (`none`, the `null` early return); neither ever
raises. -/
theorem empty_input_safe :
    aggregateData [] = ⟨0, 0, 0, 0, [], []⟩ ∧ renderForceGraph [] = none :=
  ⟨rfl, rfl⟩

/-- C5 counterexample: the node ids generated for supplier "Acme" use the
literal tag `SUP:` (and `DEV:`, `CUST:` for the other groups), not the
`supplier:` tag the claim states. -/
theorem node_id_tag_counterexample :
    (graphNodes [⟨"Acme", none, "C", "D", 1, "M"⟩]).map GraphNode.id =
      ["SUP:Acme", "DEV:D", "CUST:C"] ∧
    "supplier:Acme" ∉
      (graphNodes [⟨"Acme", none, "C", "D", 1, "M"⟩]).map GraphNode.id := by
  decide

/-- C5 amended: the id of each generated node is the literal group tag
`SUP:`, `DEV:`, or `CUST:` followed by the raw field value stored as the
node label. -/
theorem node_id_is_tag_plus_label (rs : List PackingListItem)
    (n : GraphNode) (hn : n ∈ graphNodes rs) : NodeOk n :=
  graphNodes_nodeOk rs n hn

/-- Witness for the amended C5 at a concrete one-record input. -/
theorem node_id_is_tag_plus_label_witness :
    (GraphNode.mk "SUP:Acme" "supplier" "Acme") ∈
      graphNodes [⟨"Acme", none, "C", "D", 1, "M"⟩] ∧
    NodeOk (GraphNode.mk "SUP:Acme" "supplier" "Acme") :=
  ⟨by decide,
   node_id_is_tag_plus_label [⟨"Acme", none, "C", "D", 1, "M"⟩]
     (GraphNode.mk "SUP:Acme" "supplier" "Acme") (by decide)⟩

/-- C6: filter identity law: all-wildcard criteria (empty supplier, empty
device, unset date bounds) return the collection unchanged. -/
theorem filter_identity (records : List PackingListItem) :
    filterData records ⟨"", "", none, none⟩ = records :=
  List.filter_eq_self.mpr (fun _ _ => rfl)

instance : IsTotal DeviceStat devRel := ⟨by
  intro a b
  rcases Nat.lt_trichotomy a.value b.value with h | h | h
  · exact Or.inr (Or.inl h)
  · rcases le_total a.name b.name with hn | hn
    · exact Or.inl (Or.inr ⟨h, hn⟩)
    · exact Or.inr (Or.inr ⟨h.symm, hn⟩)
  · exact Or.inl (Or.inl h)⟩

instance : IsTrans DeviceStat devRel := ⟨by
  intro a b c hab hbc
  rcases hab with h1 | ⟨h1, h1n⟩ <;> rcases hbc with h2 | ⟨h2, h2n⟩
  · exact Or.inl (h2.trans h1)
  · exact Or.inl (h2 ▸ h1)
  · exact Or.inl (h1 ▸ h2)
  · exact Or.inr ⟨h1.trans h2, h1n.trans h2n⟩⟩

theorem topDevices_mem (rs : List PackingListItem) (e : DeviceStat)
    (he : e ∈ (aggregateData rs).topDevices) :
    e ∈ (deviceNames rs).map (fun n => DeviceStat.mk n (deviceTotal rs n)) := by
  simp only [aggregateData] at he
  have h1 := (List.take_sublist _ _).subset he
  exact (List.perm_insertionSort devRel _).subset h1

/-- C7: the topDevices sequence sums quantity per distinct device name
(each entry carries the total for its name and names are distinct), is
sorted by the ranking relation (value descending, ties by name ascending),
has length at most 10, and every adjacent pair has non-increasing value. -/
theorem topDevices_ranking (rs : List PackingListItem) :
    ((aggregateData rs).topDevices).length ≤ 10 ∧
    (∀ e ∈ (aggregateData rs).topDevices,
      e.value = deviceTotal rs e.name) ∧
    (((aggregateData rs).topDevices).map DeviceStat.name).Nodup ∧
    List.Sorted devRel ((aggregateData rs).topDevices) ∧
    (∀ i : Nat, ∀ h : i + 1 < ((aggregateData rs).topDevices).length,
      (((aggregateData rs).topDevices).get ⟨i + 1, h⟩).value ≤
        (((aggregateData rs).topDevices).get ⟨i, by omega⟩).value) := by
  have hsorted : List.Sorted devRel ((aggregateData rs).topDevices) := by
    simp only [aggregateData]
    exact (List.sorted_insertionSort devRel _).sublist (List.take_sublist _ _)
  refine ⟨?_, ?_, ?_, hsorted, ?_⟩
  · simp only [aggregateData]
    exact List.length_take_le 10 _
  · intro e he
    obtain ⟨n, _, hne⟩ := List.mem_map.mp (topDevices_mem rs e he)
    rw [← hne]
  · have hperm :
        ((List.insertionSort devRel
          ((deviceNames rs).map
            (fun n => DeviceStat.mk n (deviceTotal rs n)))).map
              DeviceStat.name).Perm
          (((deviceNames rs).map
            (fun n => DeviceStat.mk n (deviceTotal rs n))).map
              DeviceStat.name) :=
      (List.perm_insertionSort devRel _).map DeviceStat.name
    have hnd :
        ((List.insertionSort devRel
          ((deviceNames rs).map
            (fun n => DeviceStat.mk n (deviceTotal rs n)))).map
              DeviceStat.name).Nodup := by
      refine hperm.nodup_iff.mpr ?_
      simp only [List.map_map]
      have : (DeviceStat.name ∘ fun n => DeviceStat.mk n (deviceTotal rs n)) =
          fun n => n := rfl
      rw [this]
      simpa using List.nodup_dedup _
    simp only [aggregateData]
    exact hnd.sublist ((List.take_sublist _ _).map DeviceStat.name)
  · intro i h
    have hrel := hsorted.rel_get_of_lt
      (a := ⟨i, by omega⟩) (b := ⟨i + 1, h⟩) (by simp)
    rcases hrel with hlt | ⟨heq, _⟩
    · exact Nat.le_of_lt hlt
    · exact Nat.le_of_eq heq.symm

theorem supplier_filter_map (rs : List PackingListItem) :
    (rs.filter (fun r => !(r.Suppliername == ""))).map
        (fun r => r.Suppliername) =
      (rs.map (fun r => r.Suppliername)).filter (fun s => !(s == "")) := by
  induction rs with
  | nil => rfl
  | cons r rest ih =>
    by_cases h : r.Suppliername = "" <;> simp [List.filter_cons, h, ih]

theorem customer_filter_map (rs : List PackingListItem) :
    (rs.filter (fun r => !(r.customer == ""))).map (fun r => r.customer) =
      (rs.map (fun r => r.customer)).filter (fun s => !(s == "")) := by
  induction rs with
  | nil => rfl
  | cons r rest ih =>
    by_cases h : r.customer = "" <;> simp [List.filter_cons, h, ih]

/-- C10: the graph builder does not exclude empty-string field values: a
record of the capped prefix with an empty supplier, device, or customer
field still yields a node for that group whose id is just the group tag
and whose label is empty, all records with an empty value in that group
share that single node, the record still contributes its two links, while
the aggregation engine ignores empty supplier and customer values in its
distinct counts. -/
theorem empty_fields_still_nodes (rs : List PackingListItem)
    (d : PackingListItem) (hd : d ∈ rs.take 100) :
    (d.Suppliername = "" →
      (∃ n ∈ graphNodes rs,
        n.id = "SUP:" ∧ n.group = "supplier" ∧ n.label = "") ∧
      ((graphNodes rs).map GraphNode.id).count "SUP:" = 1) ∧
    (d.DeviceName = "" →
      (∃ n ∈ graphNodes rs,
        n.id = "DEV:" ∧ n.group = "device" ∧ n.label = "") ∧
      ((graphNodes rs).map GraphNode.id).count "DEV:" = 1) ∧
    (d.customer = "" →
      (∃ n ∈ graphNodes rs,
        n.id = "CUST:" ∧ n.group = "customer" ∧ n.label = "") ∧
      ((graphNodes rs).map GraphNode.id).count "CUST:" = 1) ∧
    GraphLink.mk ("SUP:" ++ d.Suppliername) ("DEV:" ++ d.DeviceName) 1 ∈
      graphLinks rs ∧
    GraphLink.mk ("DEV:" ++ d.DeviceName) ("CUST:" ++ d.customer)
      d.Numbers ∈ graphLinks rs ∧
    (aggregateData rs).uniqueSuppliers =
      (aggregateData
        (rs.filter (fun r => !(r.Suppliername == "")))).uniqueSuppliers ∧
    (aggregateData rs).uniqueCustomers =
      (aggregateData
        (rs.filter (fun r => !(r.customer == "")))).uniqueCustomers := by
  refine ⟨?_, ?_, ?_, ?_, ?_, ?_, ?_⟩
  · intro hs
    have he : ("SUP:" : String) = "SUP:" ++ "" := by decide
    have hmem : ("SUP:" : String) ∈ (graphNodes rs).map GraphNode.id := by
      rw [he, ← hs]
      exact mem_graphNodes_ids rs _
        (List.mem_flatMap.mpr ⟨d, hd, by simp [recordIds]⟩)
    refine ⟨?_, List.count_eq_one_of_mem (nodup_graphNodes_ids rs) hmem⟩
    obtain ⟨n, hn, hid⟩ := List.mem_map.mp hmem
    rcases graphNodes_nodeOk rs n hn with ⟨hg, hid2⟩ | ⟨hg, hid2⟩ | ⟨hg, hid2⟩
    · have hlab : n.label = "" := by
        apply tag_append_inj "SUP:"
        rw [← hid2, hid]
        exact he
      exact ⟨n, hn, hid, hg, hlab⟩
    · exfalso
      apply sup_ne_dev "" n.label
      rw [← he, ← hid]
      exact hid2
    · exfalso
      apply sup_ne_cust "" n.label
      rw [← he, ← hid]
      exact hid2
  · intro hs
    have he : ("DEV:" : String) = "DEV:" ++ "" := by decide
    have hmem : ("DEV:" : String) ∈ (graphNodes rs).map GraphNode.id := by
      rw [he, ← hs]
      exact mem_graphNodes_ids rs _
        (List.mem_flatMap.mpr ⟨d, hd, by simp [recordIds]⟩)
    refine ⟨?_, List.count_eq_one_of_mem (nodup_graphNodes_ids rs) hmem⟩
    obtain ⟨n, hn, hid⟩ := List.mem_map.mp hmem
    rcases graphNodes_nodeOk rs n hn with ⟨hg, hid2⟩ | ⟨hg, hid2⟩ | ⟨hg, hid2⟩
    · exfalso
      apply sup_ne_dev n.label ""
      rw [← hid2, hid]
      exact he
    · have hlab : n.label = "" := by
        apply tag_append_inj "DEV:"
        rw [← hid2, hid]
        exact he
      exact ⟨n, hn, hid, hg, hlab⟩
    · exfalso
      apply dev_ne_cust "" n.label
      rw [← he, ← hid]
      exact hid2
  · intro hs
    have he : ("CUST:" : String) = "CUST:" ++ "" := by decide
    have hmem : ("CUST:" : String) ∈ (graphNodes rs).map GraphNode.id := by
      rw [he, ← hs]
      exact mem_graphNodes_ids rs _
        (List.mem_flatMap.mpr ⟨d, hd, by simp [recordIds]⟩)
    refine ⟨?_, List.count_eq_one_of_mem (nodup_graphNodes_ids rs) hmem⟩
    obtain ⟨n, hn, hid⟩ := List.mem_map.mp hmem
    rcases graphNodes_nodeOk rs n hn with ⟨hg, hid2⟩ | ⟨hg, hid2⟩ | ⟨hg, hid2⟩
    · exfalso
      apply sup_ne_cust n.label ""
      rw [← hid2, hid]
      exact he
    · exfalso
      apply dev_ne_cust n.label ""
      rw [← hid2, hid]
      exact he
    · have hlab : n.label = "" := by
        apply tag_append_inj "CUST:"
        rw [← hid2, hid]
        exact he
      exact ⟨n, hn, hid, hg, hlab⟩
  · rw [graphLinks_eq]
    exact List.mem_flatMap.mpr ⟨d, hd, by simp [recordLinks]⟩
  · rw [graphLinks_eq]
    exact List.mem_flatMap.mpr ⟨d, hd, by simp [recordLinks]⟩
  · simp only [aggregateData]
    rw [supplier_filter_map, List.filter_filter]
    simp
  · simp only [aggregateData]
    rw [customer_filter_map, List.filter_filter]
    simp

/-- Witness for C10 at a concrete one-record input whose supplier, device
and customer fields are all empty, so every emptiness antecedent fires. -/
theorem empty_fields_still_nodes_witness :
    (⟨"", none, "", "", 2, "M"⟩ : PackingListItem) ∈
      ([⟨"", none, "", "", 2, "M"⟩] : List PackingListItem).take 100 ∧
    ((("" : String) = "" →
      (∃ n ∈ graphNodes [⟨"", none, "", "", 2, "M"⟩],
        n.id = "SUP:" ∧ n.group = "supplier" ∧ n.label = "") ∧
      ((graphNodes [⟨"", none, "", "", 2, "M"⟩]).map
        GraphNode.id).count "SUP:" = 1) ∧
     (("" : String) = "" →
      (∃ n ∈ graphNodes [⟨"", none, "", "", 2, "M"⟩],
        n.id = "DEV:" ∧ n.group = "device" ∧ n.label = "") ∧
      ((graphNodes [⟨"", none, "", "", 2, "M"⟩]).map
        GraphNode.id).count "DEV:" = 1) ∧
     (("" : String) = "" →
      (∃ n ∈ graphNodes [⟨"", none, "", "", 2, "M"⟩],
        n.id = "CUST:" ∧ n.group = "customer" ∧ n.label = "") ∧
      ((graphNodes [⟨"", none, "", "", 2, "M"⟩]).map
        GraphNode.id).count "CUST:" = 1) ∧
     GraphLink.mk ("SUP:" ++ "") ("DEV:" ++ "") 1 ∈
       graphLinks [⟨"", none, "", "", 2, "M"⟩] ∧
     GraphLink.mk ("DEV:" ++ "") ("CUST:" ++ "") 2 ∈
       graphLinks [⟨"", none, "", "", 2, "M"⟩] ∧
     (aggregateData [⟨"", none, "", "", 2, "M"⟩]).uniqueSuppliers =
       (aggregateData
         (([⟨"", none, "", "", 2, "M"⟩] : List PackingListItem).filter
           (fun r => !(r.Suppliername == "")))).uniqueSuppliers ∧
     (aggregateData [⟨"", none, "", "", 2, "M"⟩]).uniqueCustomers =
       (aggregateData
         (([⟨"", none, "", "", 2, "M"⟩] : List PackingListItem).filter
           (fun r => !(r.customer == "")))).uniqueCustomers) :=
  ⟨by decide,
   empty_fields_still_nodes [⟨"", none, "", "", 2, "M"⟩]
     ⟨"", none, "", "", 2, "M"⟩ (by decide)⟩
